import Mathlib

/-!
Verification of the corto recruitment platform (coffeeAGNTCY/coffee_agents/corto).

Shallow embedding of the Python sources:
  * exchange/services.py   (AgentClient.resume_best_match and friends)
  * exchange/main.py       (workflow endpoints: publish, respond, interview, finalize)
  * resume_mastermind/utils.py (fuzzy_skill_match, rapidfuzz token_set_ratio)
  * database/models.py     (persistent entities)

Conventions:
  * Python strings are embedded as `List Char` (named `Str`), so every string
    operation is a plain structural function the kernel can evaluate.
  * Python floats that the code only ever adds/divides/compares are embedded
    as ℚ (exact arithmetic; all values involved are exact in the source too).
  * Timestamps are opaque `Nat` values supplied by the caller (datetime.now).
  * LLM invocations are abstracted as explicit parameters carrying the
    validated structured output (`some result`) or the post-retry failure
    (`none`); each embedded operation also reports how many model
    invocations it performed where a claim needs that.
  * SQLAlchemy sessions: an operation that raises before commit leaves the
    store unchanged (rollback), so fallible operations return `Except`,
    errors carrying no state.
-/

deriving instance DecidableEq for Except

namespace Corto

/-- Python strings, embedded as lists of characters. -/
abbrev Str := List Char

/-- Python str whitespace test (ASCII subset used by str.strip / str.split). -/
def pySpace (c : Char) : Bool :=
  c = ' ' || c = '\t' || c = '\n' || c = '\r' || c = '\x0b' || c = '\x0c'

/-- Python str.strip(): remove leading and trailing whitespace. -/
def pyStrip (s : Str) : Str :=
  ((s.dropWhile pySpace).reverse.dropWhile pySpace).reverse

/-- Python str.lower() (ASCII letters; the sources only feed ASCII skill names). -/
def pyLower (s : Str) : Str := s.map Char.toLower

/-- Python str.split() with no separator: split on whitespace runs, dropping empties. -/
def splitWs (s : Str) : List Str :=
  (s.splitOnP pySpace).filter (fun t => ¬ t.isEmpty)

/-- Python str.split("\n"). -/
def splitNl (s : Str) : List Str := s.splitOn '\n'

/-- Code-point order on characters (Python string comparison). -/
def charLt (c d : Char) : Bool := c.val < d.val

/-- Lexicographic code-point order on strings (Python string comparison). -/
def strLt : Str → Str → Bool
  | [], [] => false
  | [], _ :: _ => true
  | _ :: _, [] => false
  | c :: cs, d :: ds => charLt c d || (c = d && strLt cs ds)

/-- Insert a string into an ascending-sorted list (used to model Python sorted()). -/
def insertStrAsc (x : Str) : List Str → List Str
  | [] => [x]
  | y :: ys => if strLt x y then x :: y :: ys else y :: insertStrAsc x ys

/-- Python sorted() over strings. -/
def sortStrAsc (l : List Str) : List Str := l.foldr insertStrAsc []

/-- Sorted unique token multiset of a string: rapidfuzz splits on whitespace,
deduplicates and sorts the tokens before the set operations. -/
def sortedTokens (s : Str) : List Str := sortStrAsc (splitWs s).dedup

/-- Length of the longest common subsequence of two character lists
(basis of the rapidfuzz Indel distance). -/
def lcsLen : List Char → List Char → Nat
  | [], _ => 0
  | _ :: _, [] => 0
  | a :: as, b :: bs =>
      if a = b then lcsLen as bs + 1
      else max (lcsLen (a :: as) bs) (lcsLen as (b :: bs))
termination_by a b => a.length + b.length

/-- rapidfuzz Indel distance: insertions and deletions only. -/
def indelDistance (a b : Str) : Nat := a.length + b.length - 2 * lcsLen a b

/-- rapidfuzz norm_distance: 100 - 100 * dist / lensum (100 when lensum is 0). -/
def normDistance (dist lensum : Nat) : ℚ :=
  if lensum = 0 then 100 else 100 - 100 * (dist : ℚ) / (lensum : ℚ)

/-- Python " ".join(words). -/
def joinSpace (words : List Str) : Str := (words.intersperse [' ']).flatten

/-- rapidfuzz fuzz.token_set_ratio (pure-Python reference implementation,
no score cutoff): compare the sorted unique token sets of the two strings. -/
def token_set_ratio (s1 s2 : Str) : ℚ :=
  let tokens_a := sortedTokens s1
  let tokens_b := sortedTokens s2
  if tokens_a.isEmpty || tokens_b.isEmpty then 0
  else
    let intersect := tokens_a.filter (fun t => t ∈ tokens_b)
    let diff_ab := tokens_a.filter (fun t => t ∉ tokens_b)
    let diff_ba := tokens_b.filter (fun t => t ∉ tokens_a)
    if ¬ intersect.isEmpty ∧ (diff_ab.isEmpty ∨ diff_ba.isEmpty) then 100
    else
      let diff_ab_joined := joinSpace diff_ab
      let diff_ba_joined := joinSpace diff_ba
      let ab_len := diff_ab_joined.length
      let ba_len := diff_ba_joined.length
      let sect_len := (joinSpace intersect).length
      let bool_sect := if sect_len = 0 then 0 else 1
      let sect_ab_len := sect_len + bool_sect + ab_len
      let sect_ba_len := sect_len + bool_sect + ba_len
      let dist := indelDistance diff_ab_joined diff_ba_joined
      let result := normDistance dist (sect_ab_len + sect_ba_len)
      if sect_len = 0 then result
      else
        let sect_ab_dist := 1 + ab_len
        let sect_ab_ratio := normDistance sect_ab_dist (sect_len + sect_ab_len)
        let sect_ba_dist := 1 + ba_len
        let sect_ba_ratio := normDistance sect_ba_dist (sect_len + sect_ba_len)
        max result (max sect_ab_ratio sect_ba_ratio)

/-- resume_mastermind/utils.py normalize (inner function of fuzzy_skill_match):
skill.lower().replace("-", " ").replace(".", "").strip(). -/
def normalize (skill : Str) : Str :=
  pyStrip (((pyLower skill).map (fun c => if c = '-' then ' ' else c)).filter (fun c => c ≠ '.'))

/-- rapidfuzz process.extractOne(skill, choices, scorer=token_set_ratio): the best
(maximal) score of skill against the choices. Scores are never negative, so the
fold base 0 is neutral on the nonempty lists the source calls this with. -/
def bestScore (skill : Str) (choices : List Str) : ℚ :=
  (choices.map (fun c => token_set_ratio skill c)).foldl max 0

/-- resume_mastermind/utils.py fuzzy_skill_match: average over list1 of the best
token-set-ratio score against list2, after normalization; 0.0 when either list
is empty. -/
def fuzzy_skill_match (list1 list2 : List Str) : ℚ :=
  if list1.isEmpty || list2.isEmpty then 0
  else
    let list1_norm := list1.map normalize
    let list2_norm := list2.map normalize
    let best_scores := list1_norm.map (fun s => bestScore s list2_norm)
    best_scores.sum / (best_scores.length : ℚ)

/-! ### LLM re-ranker (exchange/services.py, AgentClient.resume_best_match) -/

/-- One candidate entry of the candidates_payload built in employer_publish_job
(main.py lines 1031-1041). Only the id takes part in any control flow; the
remaining fields are prompt content forwarded to the model. -/
structure CandidatePayload where
  id : Nat
  full_name : Option Str := none
  email : Option Str := none
  skills : List Str := []
  work_experience : List Str := []
  education : List Str := []
deriving DecidableEq, Repr, Inhabited

/-- One entry of RankingOutput.ranked (common/llm.py RankedCandidate). -/
structure RankedEntry where
  profile_id : Nat
  rank : Nat
deriving DecidableEq, Repr, Inhabited

/-- The dict returned by AgentClient.resume_best_match. -/
structure BestMatchResult where
  top_10 : List RankedEntry
  top_5 : List RankedEntry
deriving DecidableEq, Repr, Inhabited

/-- exchange/services.py AgentClient.resume_best_match (lines 113-137).
`model` abstracts invoke_structured_with_retry: `some ranked` is the validated
RankingOutput.ranked list, `none` the exception after the invoker's single
built-in retry. The second component counts model invocations performed. -/
def resume_best_match (job_schema_str : Str) (model : Option (List RankedEntry))
    (candidates_payload : List CandidatePayload) : BestMatchResult × Nat :=
  if candidates_payload.isEmpty then ({ top_10 := [], top_5 := [] }, 0)
  else
    match model with
    | some ranked =>
        let top := ranked.take 5
        ({ top_10 := top, top_5 := top }, 1)
    | none =>
        ({ top_10 := (candidates_payload.take 5).enum.map
              (fun ic => { profile_id := ic.2.id, rank := ic.1 + 1 }),
           top_5 := [] }, 1)

/-- exchange/main.py employer_publish_job lines 1045-1047: Python or-coalescing
of top_5 / top_10 (empty list is falsy), then truncation to 5. -/
def publish_top_5 (top : BestMatchResult) : List RankedEntry :=
  let t5 :=
    if ¬ top.top_5.isEmpty then top.top_5
    else if ¬ top.top_10.isEmpty then top.top_10
    else []
  if t5.length > 5 then t5.take 5 else t5

/-! ### Data model (database/models.py) -/

/-- Job.status column: draft | published | closed. -/
inductive JobStatus
  | draft
  | published
  | closed
deriving DecidableEq, Repr, Inhabited

/-- The job_description object stored under the root key of Job.description_schema,
kept as opaque key-value content (its fields are only serialized into prompts and
markdown). The stored root dict has the single key job_description, so root
truthiness coincides with presence. -/
abbrev JD := List (Str × Str)

/-- database/models.py Job. -/
structure JobRec where
  id : Nat
  employer_id : Nat
  title : Str
  description_md : Option Str
  description_schema : Option JD
  status : JobStatus
  created_at : Nat
deriving DecidableEq, Repr

/-- database/models.py CandidateProfile (fields the embedded operations read). -/
structure ProfileRec where
  id : Nat
  user_id : Nat
  full_name : Option Str := none
  email : Option Str := none
  summary : Option Str := none
  skills : List Str := []
  work_experience : List Str := []
  education : List Str := []
deriving DecidableEq, Repr

/-- JobCandidate.candidate_decision values. -/
inductive CandidateDecision
  | interested
  | rejected
deriving DecidableEq, Repr

/-- JobCandidate.company_decision values. -/
inductive CompanyDecision
  | placed
  | rejected
deriving DecidableEq, Repr

/-- database/models.py JobCandidate. -/
structure JobCandidateRec where
  id : Nat
  job_id : Nat
  candidate_profile_id : Nat
  rank : Option Nat := none
  invited_at : Option Nat := none
  interview_completed_at : Option Nat := none
  score : Option ℚ := none
  candidate_decision : Option CandidateDecision := none
  company_decision : Option CompanyDecision := none
  selected_top_3 : Bool := false
deriving DecidableEq, Repr

/-- database/models.py InterviewSession. An absent (NULL) questions column and an
empty list behave identically at every use site (Python truthiness), so both are
embedded as []. -/
structure SessionRec where
  id : Nat
  job_candidate_id : Nat
  interview_link_token : Str
  questions : List Str := []
  started_at : Option Nat := none
  ended_at : Option Nat := none
  transcript : Option Str := none
  score : Option ℚ := none
  recording_url : Option Str := none
deriving DecidableEq, Repr

/-- The persistent store, with autoincrement counters. -/
structure DB where
  jobs : List JobRec := []
  profiles : List ProfileRec := []
  job_candidates : List JobCandidateRec := []
  sessions : List SessionRec := []
  next_job_id : Nat := 1
  next_jc_id : Nat := 1
  next_session_id : Nat := 1
deriving DecidableEq, Repr

/-- Python `x or default` over an optional string column: None and the empty
string both fall through to the default. -/
def pyOrStr (x : Option Str) (dflt : Str) : Str :=
  match x with
  | some s => if s.isEmpty then dflt else s
  | none => dflt

/-- select(Job).where(Job.id == job_id, Job.employer_id == user_id). -/
def findJob (db : DB) (jid emp : Nat) : Option JobRec :=
  db.jobs.find? (fun j => j.id == jid && j.employer_id == emp)

def updateJob (db : DB) (jid : Nat) (f : JobRec → JobRec) : DB :=
  { db with jobs := db.jobs.map (fun j => if j.id == jid then f j else j) }

def updateJC (db : DB) (jcid : Nat) (f : JobCandidateRec → JobCandidateRec) : DB :=
  { db with job_candidates := db.job_candidates.map (fun jc => if jc.id == jcid then f jc else jc) }

def updateSession (db : DB) (sid : Nat) (f : SessionRec → SessionRec) : DB :=
  { db with sessions := db.sessions.map (fun s => if s.id == sid then f s else s) }

/-- The distinct HTTP / runtime failures of the embedded endpoints. -/
inductive Err
  | notFound               -- HTTPException 404 (job / profile / session / token)
  | alreadyResponded       -- 400 "Already responded to this interview"
  | onlyDraftEditable      -- 400 "Only draft jobs can be edited."
  | alreadyCompleted       -- 400 "Interview already completed."
  | noCompletedInterviews  -- 400 "No completed interviews to finalize. ..."
  | bestMatchNeedsSchema   -- 400 "Best match requires job with structured description (schema). ..."
  | typeErrorNoneResult    -- TypeError: argument of type NoneType is not iterable (main.py:1013)
  | onlyPublishedReinvite  -- 400 "Only published jobs can reinvite candidates."
deriving DecidableEq, Repr

/-! ### Workflow operations (exchange/main.py) -/

/-- main.py _parse_questions_from_agent. -/
def parse_questions_from_agent (questions_text : Option Str) : List Str :=
  let t := questions_text.getD []
  if (pyStrip t).isEmpty then []
  else
    let lines := splitNl (pyStrip t)
    let stripped := lines.map pyStrip
    let questions := stripped.filter (fun l =>
      ¬ l.isEmpty && ((match l.head? with | some c => c.isDigit | none => false)
                       || (match l.head? with | some c => c = '-' | none => false)))
    let questions := if questions.isEmpty then (stripped.filter (fun l => ¬ l.isEmpty)).take 10 else questions
    questions.take 10

/-- main.py employer_create_job. `toMd` embeds schemas.job_description_to_markdown.
Returns the new job id alongside the store. -/
def employer_create_job (toMd : JD → Str) (db : DB) (emp : Nat) (title : Str)
    (description_md : Str) (job_description : Option JD) (now : Nat) : DB × Nat :=
  let (schema, md) :=
    match job_description with
    | some jd => (some jd, toMd jd)
    | none => (none, description_md)
  let jid := db.next_job_id
  ({ db with
      jobs := db.jobs ++ [{ id := jid, employer_id := emp, title := title,
                            description_md := some md, description_schema := schema,
                            status := .draft, created_at := now }],
      next_job_id := jid + 1 }, jid)

/-- main.py employer_update_job: title/description edits, drafts only. -/
def employer_update_job (toMd : JD → Str) (db : DB) (jid emp : Nat)
    (title : Option Str) (description_md : Option Str) (job_description : Option JD) :
    Except Err DB :=
  match findJob db jid emp with
  | none => .error .notFound
  | some row =>
    if row.status ≠ .draft then .error .onlyDraftEditable
    else
      let row1 := match title with | some t => { row with title := t } | none => row
      let row2 :=
        match job_description with
        | some jd => { row1 with description_schema := some jd, description_md := some (toMd jd) }
        | none =>
          match description_md with
          | some md => { row1 with description_md := some md }
          | none => row1
      .ok (updateJob db jid (fun _ => row2))

/-- main.py employer_publish_job (lines 995-1106).
`extract` abstracts AgentClient.job_description_generate_schema: `none` is the
post-retry LLM failure (the method returns None), `some jd` the successful
root dict. `model` abstracts the re-ranker exactly as in resume_best_match.
`tokens k` is the k-th secrets.token_urlsafe(32) drawn. The email phase
performs no store mutation. On any raised error, nothing was committed. -/
def employer_publish_job (toMd : JD → Str) (toJson : JD → Str)
    (extract : Option JD) (model : Option (List RankedEntry)) (tokens : Nat → Str)
    (db : DB) (jid emp : Nat) : Except Err DB :=
  match findJob db jid emp with
  | none => .error .notFound
  | some job =>
    let step : Except Err JobRec :=
      if job.description_schema.isNone && ¬ (pyStrip (job.description_md.getD [])).isEmpty then
        match extract with
        | none => .error .typeErrorNoneResult
        | some jd =>
            if ¬ jd.isEmpty then
              .ok { job with description_schema := some jd, description_md := some (toMd jd) }
            else .ok job
      else .ok job
    match step with
    | .error e => .error e
    | .ok job1 =>
      let candidates_payload : List CandidatePayload := db.profiles.map (fun p =>
        { id := p.id, full_name := p.full_name, email := p.email, skills := p.skills,
          work_experience := p.work_experience, education := p.education })
      match job1.description_schema with
      | none => .error .bestMatchNeedsSchema
      | some jd =>
        let top := (resume_best_match (toJson jd) model candidates_payload).1
        let top_5 := publish_top_5 top
        let created := top_5.foldl (fun (acc : DB × Nat) e =>
          let pid : Option Nat := if e.profile_id == 0 then none else some e.profile_id
          match pid.bind (fun p => acc.1.profiles.find? (fun c => c.id == p)) with
          | none => acc
          | some cand =>
              let jcId := acc.1.next_jc_id
              let sId := acc.1.next_session_id
              ({ acc.1 with
                  job_candidates := acc.1.job_candidates ++
                    [{ id := jcId, job_id := job1.id, candidate_profile_id := cand.id,
                       rank := some e.rank, invited_at := some job.created_at }],
                  sessions := acc.1.sessions ++
                    [{ id := sId, job_candidate_id := jcId, interview_link_token := tokens acc.2 }],
                  next_jc_id := jcId + 1, next_session_id := sId + 1 }, acc.2 + 1))
          (db, 0)
        .ok (updateJob created.1 jid (fun _ => { job1 with status := .published }))

/-- main.py employer_reinvite_candidates: published jobs only; emails carry no
store mutation. -/
def employer_reinvite_candidates (db : DB) (jid emp : Nat) : Except Err DB :=
  match findJob db jid emp with
  | none => .error .notFound
  | some job =>
    if job.status ≠ .published then .error .onlyPublishedReinvite
    else .ok db

/-- The swipe-right continuation of candidate_respond_to_interview (main.py
lines 522-560): resolve job, session and profile, prepare and persist questions
when any were produced; emails and background video generation carry no store
mutation. -/
def respond_interested_phase (db1 : DB) (jc : JobCandidateRec) (questions_text : Str) : DB :=
  match db1.jobs.find? (fun j => j.id == jc.job_id),
        db1.sessions.find? (fun s => s.job_candidate_id == jc.id),
        db1.profiles.find? (fun p => p.id == jc.candidate_profile_id) with
  | some _job, some inv, some _cp =>
      let questions := parse_questions_from_agent (some questions_text)
      if ¬ questions.isEmpty then
        updateSession db1 inv.id (fun s => { s with questions := questions })
      else db1
  | _, _, _ => db1

/-- main.py candidate_respond_to_interview (lines 487-561). `questions_text`
abstracts AgentClient.interview_prepare_questions ("" covers agent failure). -/
def candidate_respond_to_interview (db : DB) (user_id jcid : Nat) (interested : Bool)
    (questions_text : Str) : Except Err DB :=
  match db.profiles.find? (fun p => p.user_id == user_id) with
  | none => .error .notFound
  | some profile =>
    match db.job_candidates.find? (fun jc => jc.id == jcid && jc.candidate_profile_id == profile.id) with
    | none => .error .notFound
    | some jc =>
      if jc.candidate_decision.isSome then .error .alreadyResponded
      else
        let decision := if interested then CandidateDecision.interested else CandidateDecision.rejected
        let db1 := updateJC db jcid (fun r => { r with candidate_decision := some decision })
        .ok (if interested then respond_interested_phase db1 jc questions_text else db1)

/-- main.py interview_start (lines 629-647): set started_at only when unset. -/
def interview_start (db : DB) (token : Str) (now : Nat) : Except Err DB :=
  match db.sessions.find? (fun s => s.interview_link_token == pyStrip token) with
  | none => .error .notFound
  | some inv =>
    if inv.started_at.isSome then .ok db
    else .ok (updateSession db inv.id (fun s => { s with started_at := some now }))

/-- Python "if score is not None: overwrite": the scoring result when present,
else the previously stored value. -/
def scoreOrKeep (score_result : Option ℚ) (old : Option ℚ) : Option ℚ :=
  match score_result with
  | some sc => some sc
  | none => old

/-- The session-row update performed by interview_complete: store the stripped
transcript (or NULL), the end time, and the score when scoring produced one. -/
def completeSessionUpdate (stored : Option Str) (score_result : Option ℚ) (now : Nat)
    (s : SessionRec) : SessionRec :=
  { s with transcript := stored, ended_at := some now,
           score := scoreOrKeep score_result s.score }

/-- The JobCandidate-row update performed by interview_complete: propagate the
score when scoring produced one and stamp interview_completed_at. -/
def completeJCUpdate (score_result : Option ℚ) (now : Nat)
    (r : JobCandidateRec) : JobCandidateRec :=
  { r with score := scoreOrKeep score_result r.score,
           interview_completed_at := some now }

/-- main.py interview_complete (lines 735-782). `score_result` abstracts
AgentClient.interview_score: `none` both when the score LLM failed (empty dict)
and when conversion failed. Returns the response score alongside the store. -/
def interview_complete (db : DB) (token : Str) (transcript : Str)
    (score_result : Option ℚ) (now : Nat) : Except Err (DB × Option ℚ) :=
  match db.sessions.find? (fun s => s.interview_link_token == pyStrip token) with
  | none => .error .notFound
  | some inv =>
    match db.job_candidates.find? (fun jc => jc.id == inv.job_candidate_id) with
    | none => .error .alreadyCompleted
    | some jc =>
      if jc.interview_completed_at.isSome then .error .alreadyCompleted
      else
        match db.jobs.find? (fun j => j.id == jc.job_id),
              db.profiles.find? (fun p => p.id == jc.candidate_profile_id) with
        | some _, some _ =>
            let t := pyStrip transcript
            let stored : Option Str := if t.isEmpty then none else some t
            let db1 := updateSession db inv.id (completeSessionUpdate stored score_result now)
            let db2 := updateJC db1 jc.id (completeJCUpdate score_result now)
            .ok (db2, scoreOrKeep score_result inv.score)
        | _, _ => .error .notFound

/-! ### Finalize (exchange/main.py employer_finalize_job, lines 1142-1217) -/

/-- One entry of the candidates_payload list built by finalize. -/
structure FinalizeCandidate where
  job_candidate_id : Nat
  profile_id : Nat
  full_name : Str
  email : Str
  recording_url : Str
  transcript : Str
  score : Option ℚ
  selected_top_3 : Bool
deriving DecidableEq, Repr

/-- Python `(c["score"] or 0)`: None and 0.0 both give 0. -/
def scoreKey (c : FinalizeCandidate) : ℚ := c.score.getD 0

/-- Insert into an ascending-by-id list, preserving the relative order of
equal ids (models the order_by(JobCandidate.id) read). -/
def insertByIdAsc (x : JobCandidateRec) : List JobCandidateRec → List JobCandidateRec
  | [] => [x]
  | y :: ys => if x.id < y.id then x :: y :: ys else y :: insertByIdAsc x ys

def sortByIdAsc (l : List JobCandidateRec) : List JobCandidateRec :=
  l.foldl (fun acc x => insertByIdAsc x acc) []

/-- Stable descending insertion by score key (Python sorted(key=..., reverse=True)
keeps the original relative order of equal keys; the element being inserted came
later, so it passes every element whose key is not strictly smaller). -/
def insertByScoreDesc (x : FinalizeCandidate) : List FinalizeCandidate → List FinalizeCandidate
  | [] => [x]
  | y :: ys => if scoreKey y < scoreKey x then x :: y :: ys else y :: insertByScoreDesc x ys

/-- Python sorted(candidates_payload, key=lambda c: (c["score"] or 0), reverse=True). -/
def sortByScoreDesc (l : List FinalizeCandidate) : List FinalizeCandidate :=
  l.foldl (fun acc x => insertByScoreDesc x acc) []

/-- The finalize read: JobCandidate rows of the job ordered by id, inner-joined
with CandidateProfile (rows without a profile drop out) and outer-joined with
InterviewSession. -/
def finalize_rows (db : DB) (jid : Nat) :
    List (JobCandidateRec × Option SessionRec × ProfileRec) :=
  (sortByIdAsc (db.job_candidates.filter (fun jc => jc.job_id == jid))).filterMap (fun jc =>
    match db.profiles.find? (fun p => p.id == jc.candidate_profile_id) with
    | none => none
    | some cp => some (jc, db.sessions.find? (fun s => s.job_candidate_id == jc.id), cp))

/-- The qualification filter of finalize: interview_completed_at set and the
joined session present with a truthy (non-null, non-empty) transcript. -/
def finalizeQualifies (row : JobCandidateRec × Option SessionRec × ProfileRec) : Bool :=
  row.1.interview_completed_at.isSome &&
    (match row.2.1 with
     | some inv => ¬ (inv.transcript.getD []).isEmpty
     | none => false)

/-- "Candidate", the full_name fallback literal. -/
def candidateFallback : Str := ['C','a','n','d','i','d','a','t','e']

/-- The candidates_payload entry built from a qualifying row. -/
def finalizePayloadEntry (row : JobCandidateRec × Option SessionRec × ProfileRec) :
    FinalizeCandidate :=
  { job_candidate_id := row.1.id
    profile_id := row.2.2.id
    full_name := pyOrStr row.2.2.full_name candidateFallback
    email := pyOrStr row.2.2.email []
    recording_url := pyOrStr (row.2.1.bind (fun s => s.recording_url)) []
    transcript := pyOrStr (row.2.1.bind (fun s => s.transcript)) []
    score := row.1.score
    selected_top_3 := false }

/-- The qualifying rows of finalize (jc_list entries with a completed interview
and a truthy transcript). -/
def finalizeScored (db : DB) (jid : Nat) :
    List (JobCandidateRec × Option SessionRec × ProfileRec) :=
  (finalize_rows db jid).filter finalizeQualifies

/-- The candidates_payload list finalize builds. -/
def finalizePayload (db : DB) (jid : Nat) : List FinalizeCandidate :=
  (finalizeScored db jid).map finalizePayloadEntry

/-- top_3_ids: profile ids of the first three payload entries after the stable
descending sort by (score or 0). -/
def finalizeTop3Ids (db : DB) (jid : Nat) : List Nat :=
  ((sortByScoreDesc (finalizePayload db jid)).take 3).map (fun c => c.profile_id)

/-- main.py employer_finalize_job. The store_interview_results delegation is
external and its failure is swallowed (log and continue), so it carries no
store effect either way. -/
def employer_finalize_job (db : DB) (jid emp : Nat) : Except Err DB :=
  match findJob db jid emp with
  | none => .error .notFound
  | some _job =>
    let top_3_ids := finalizeTop3Ids db jid
    if (finalizePayload db jid).isEmpty then .error .noCompletedInterviews
    else
      let db1 := { db with job_candidates := db.job_candidates.map (fun jc : JobCandidateRec =>
          if jc.job_id == jid then { jc with selected_top_3 := decide (jc.candidate_profile_id ∈ top_3_ids) } else jc) }
      let db2 := { db1 with jobs := db1.jobs.map (fun j : JobRec =>
          if j.id == jid && j.employer_id == emp then { j with status := JobStatus.closed } else j) }
      .ok db2

/-! ### Theorems: LLM re-ranker (C1, C4, C9) -/

/-- Truncation step shared by publish_top_5. -/
theorem trunc5_length (l : List RankedEntry) : (if l.length > 5 then l.take 5 else l).length ≤ 5 := by
  split
  · simp [List.length_take]
  · omega

/-- publish_top_5 never yields more than 5 entries, whatever the service returned. -/
theorem publish_top_5_length_le (r : BestMatchResult) : (publish_top_5 r).length ≤ 5 := by
  unfold publish_top_5
  exact trunc5_length _

/-- C9: for the empty candidate list, resume_best_match returns empty top_10 and
top_5 immediately and performs no model invocation, for every possible model
behaviour. -/
theorem C9_empty_pool_no_model_call (job_schema_str : Str) (model : Option (List RankedEntry)) :
    resume_best_match job_schema_str model [] = ({ top_10 := [], top_5 := [] }, 0) := rfl

/-- C1: when the re-ranker model call fails (after the invoker's built-in retry),
the ranking the publish step consumes is the deterministic fallback: the first 5
candidates in input order with rank = position + 1. -/
theorem C1_model_failure_deterministic_fallback (job_schema_str : Str)
    (candidates : List CandidatePayload) (h : candidates ≠ []) :
    publish_top_5 (resume_best_match job_schema_str none candidates).1 =
      (List.range (min 5 candidates.length)).map
        (fun i => { profile_id := (candidates.getD i default).id, rank := i + 1 }) := by
  have hne : candidates.isEmpty = false := List.isEmpty_eq_false.mpr h
  have hlen : 0 < candidates.length := List.length_pos.mpr h
  have e1 : (resume_best_match job_schema_str none candidates).1 =
      { top_10 := (candidates.take 5).enum.map
          (fun ic => { profile_id := ic.2.id, rank := ic.1 + 1 }), top_5 := [] } := by
    unfold resume_best_match
    rw [hne]
    rfl
  rw [e1]
  set L := (candidates.take 5).enum.map
      (fun ic => ({ profile_id := ic.2.id, rank := ic.1 + 1 } : RankedEntry)) with hLdef
  have hLlen : L.length = min 5 candidates.length := by
    simp [hLdef, List.enum_length, List.length_take]
  have hLne : L.isEmpty = false := by
    rw [List.isEmpty_eq_false]
    intro hnil
    rw [hnil] at hLlen
    simp at hLlen
    omega
  have e2 : publish_top_5 { top_10 := L, top_5 := [] } = L := by
    unfold publish_top_5
    simp only [List.isEmpty_nil, not_true_eq_false, if_false, hLne, Bool.false_eq_true,
      not_false_iff, if_true]
    rw [if_neg (by omega)]
  rw [e2]
  apply List.ext_getElem
  · simp [hLlen]
  · intro n h1 h2
    have hn : n < candidates.length := by
      rw [hLlen] at h1
      omega
    have hn5 : n < (candidates.take 5).length := by
      rw [hLlen] at h1
      simp [List.length_take]
      omega
    simp only [hLdef, List.getElem_map, List.getElem_enum, List.getElem_range, List.getElem_take]
    rw [List.getD_eq_getElem candidates default hn]

/-- C1 witness: two concrete candidates, model failure. -/
theorem C1_witness :
    ([{ id := 7 }, { id := 3 }] : List CandidatePayload) ≠ [] ∧
    publish_top_5 (resume_best_match [] none [{ id := 7 }, { id := 3 }]).1 =
      (List.range (min 5 ([{ id := 7 }, { id := 3 }] : List CandidatePayload).length)).map
        (fun i => { profile_id := (([{ id := 7 }, { id := 3 }] : List CandidatePayload).getD i default).id,
                    rank := i + 1 }) :=
  ⟨by decide, C1_model_failure_deterministic_fallback [] [{ id := 7 }, { id := 3 }] (by decide)⟩

/-- C4 fails on the code: the success path of resume_best_match truncates the
model output to 5 entries but performs no validation of the returned profile_ids
against the input candidate ids. Here the model answers with id 99 while the only
input candidate has id 1, and the answer is passed through unchanged instead of
being replaced by the deterministic fallback. -/
theorem C4_counterexample :
    (resume_best_match [] (some [{ profile_id := 99, rank := 1 }])
        [{ id := 1 }]).1.top_5 = [{ profile_id := 99, rank := 1 }] ∧
    decide (99 ∈ ([{ id := 1 }] : List CandidatePayload).map (fun c => c.id)) = false ∧
    decide ((resume_best_match [] (some [{ profile_id := 99, rank := 1 }]) [{ id := 1 }]).1 =
      (resume_best_match [] none [{ id := 1 }]).1) = false := by
  refine ⟨rfl, by decide, by decide⟩

/-- C4 amended: the re-ranker output (and the ranking the publish step consumes)
always has length at most 5; the profile_ids of a successful model response are
passed through unvalidated (the publish step later skips ids that resolve to no
stored profile). -/
theorem C4_amended_length_bound (job_schema_str : Str) (model : Option (List RankedEntry))
    (candidates : List CandidatePayload) :
    (resume_best_match job_schema_str model candidates).1.top_5.length ≤ 5 ∧
    (resume_best_match job_schema_str model candidates).1.top_10.length ≤ 5 ∧
    (publish_top_5 (resume_best_match job_schema_str model candidates).1).length ≤ 5 := by
  refine ⟨?_, ?_, publish_top_5_length_le _⟩ <;>
  · unfold resume_best_match
    split
    · simp
    · cases model with
      | some ranked => simp [List.length_take]
      | none => simp [List.enum_length, List.length_take]

/-! ### Theorems: fuzzy skill matching (C7) -/

/-- C7: fuzzy_skill_match returns 0.0 when either list is empty; otherwise it is
the arithmetic mean over list1 of the best token-set-ratio score of each
normalized skill against the normalized list2; and on the concrete pair
["Python"] vs ["python "] it evaluates to 100. -/
theorem C7_fuzzy_skill_match_spec :
    (∀ l : List Str, fuzzy_skill_match [] l = 0) ∧
    (∀ l : List Str, fuzzy_skill_match l [] = 0) ∧
    fuzzy_skill_match [['P','y','t','h','o','n']] [['p','y','t','h','o','n',' ']] = 100 ∧
    (∀ l1 l2 : List Str, l1 ≠ [] → l2 ≠ [] →
      fuzzy_skill_match l1 l2 =
        ((l1.map normalize).map (fun s => bestScore s (l2.map normalize))).sum /
          (l1.length : ℚ)) := by
  refine ⟨fun l => rfl, fun l => by simp [fuzzy_skill_match], ?_, ?_⟩
  · have hts : token_set_ratio (normalize ['P','y','t','h','o','n'])
        (normalize ['p','y','t','h','o','n',' ']) = 100 := by decide
    simp [fuzzy_skill_match, bestScore, hts]
  · intro l1 l2 h1 h2
    have e1 : l1.isEmpty = false := List.isEmpty_eq_false.mpr h1
    have e2 : l2.isEmpty = false := List.isEmpty_eq_false.mpr h2
    simp [fuzzy_skill_match, e1, e2]

/-- C7 witness: the mean clause applied at concrete one-element lists. -/
theorem C7_witness :
    ([['a']] : List Str) ≠ [] ∧ ([['b']] : List Str) ≠ [] ∧
    fuzzy_skill_match [['a']] [['b']] =
      (([['a']].map normalize).map (fun s => bestScore s ([['b']].map normalize))).sum /
        (([['a']] : List Str).length : ℚ) :=
  ⟨by decide, by decide, C7_fuzzy_skill_match_spec.2.2.2 [['a']] [['b']] (by decide) (by decide)⟩

/-! ### Theorems: publish status guard and extraction failure (C2, C3) -/

/-- A store holding one already-closed job (with a structured description and no
candidates), the failing input for the publish status guard. -/
def C2_db : DB :=
  { jobs := [{ id := 1, employer_id := 1, title := [], description_md := none,
               description_schema := some [([],[])], status := .closed, created_at := 0 }] }

/-- C2 fails on the code: employer_publish_job never checks Job.status, so
publishing a job that is already closed succeeds and moves its status back to
published — the observed status sequence closed, published reverses the
draft → published → closed order. (Edits are draft-guarded and reinvite is
published-guarded, so the missing guard is specific to publish.) -/
theorem C2_publish_ignores_status :
    (C2_db.jobs.map (fun j : JobRec => j.status)) = [JobStatus.closed] ∧
    ∃ db1, employer_publish_job (fun _ => []) (fun _ => []) none none (fun _ => []) C2_db 1 1 =
        .ok db1 ∧
      db1.jobs.map (fun j : JobRec => j.status) = [JobStatus.published] := by
  refine ⟨by decide,
    (employer_publish_job (fun _ => []) (fun _ => []) none none (fun _ => []) C2_db 1 1).toOption.getD C2_db,
    by decide, by decide⟩

/-- A store holding one draft job with a markdown description and no structured
description. -/
def C3_db : DB :=
  { jobs := [{ id := 1, employer_id := 1, title := [], description_md := some ['h','i'],
               description_schema := none, status := .draft, created_at := 0 }] }

/-- C3 fails on the code: for a draft job with only markdown, a failed JD-schema
extraction makes the publish request fail, not succeed. generate_schema returns
None on LLM failure and main.py line 1013 evaluates "error" in None, a TypeError;
the transaction rolls back, so the job stays draft without a structured
description instead of becoming published. -/
theorem C3_counterexample :
    C3_db.jobs.map (fun j : JobRec => (j.status, j.description_schema.isNone, j.description_md)) =
      [(JobStatus.draft, true, some ['h','i'])] ∧
    employer_publish_job (fun _ => []) (fun _ => []) none none (fun _ => []) C3_db 1 1 =
      .error .typeErrorNoneResult :=
  ⟨by decide, by decide⟩

/-- C3 amended: for every draft job with a non-empty markdown description and no
structured description, publish fails when extraction does: the LLM-failure
result (None) trips a TypeError, and an extraction result with a falsy
job_description leaves the job schema-less so publish itself fails the
best-match precondition. Either way the job is not published. -/
theorem C3_amended_publish_fails_on_extraction_failure
    (toMd : JD → Str) (toJson : JD → Str) (model : Option (List RankedEntry))
    (tokens : Nat → Str) (db : DB) (jid emp : Nat) (job : JobRec)
    (hj : findJob db jid emp = some job)
    (hns : job.description_schema = none)
    (hmd : ¬ (pyStrip (job.description_md.getD [])).isEmpty) :
    employer_publish_job toMd toJson none model tokens db jid emp = .error .typeErrorNoneResult ∧
    employer_publish_job toMd toJson (some []) model tokens db jid emp = .error .bestMatchNeedsSchema := by
  have hmd2 : pyStrip (job.description_md.getD []) ≠ [] := fun hh => hmd (List.isEmpty_iff.mpr hh)
  constructor
  · unfold employer_publish_job
    rw [hj]
    simp [hns, hmd2]
  · unfold employer_publish_job
    rw [hj]
    simp [hns, hmd2]

/-- C3 witness: the amended theorem applied at the concrete draft job store. -/
theorem C3_witness :
    findJob C3_db 1 1 =
      some (⟨1, 1, [], some ['h','i'], none, .draft, 0⟩ : JobRec) ∧
    employer_publish_job (fun _ => []) (fun _ => []) none none (fun _ => []) C3_db 1 1 =
        .error .typeErrorNoneResult ∧
    employer_publish_job (fun _ => []) (fun _ => []) (some []) none (fun _ => []) C3_db 1 1 =
        .error .bestMatchNeedsSchema :=
  ⟨by decide,
   (C3_amended_publish_fails_on_extraction_failure (fun _ => []) (fun _ => []) none
      (fun _ => []) C3_db 1 1 ⟨1, 1, [], some ['h','i'], none, .draft, 0⟩
      (by decide) (by decide) (by decide)).1,
   (C3_amended_publish_fails_on_extraction_failure (fun _ => []) (fun _ => []) none
      (fun _ => []) C3_db 1 1 ⟨1, 1, [], some ['h','i'], none, .draft, 0⟩
      (by decide) (by decide) (by decide)).2⟩

/-! ### Theorems: respond write-once (C5) and interview start idempotence (C8) -/

/-- find? over a pointwise-mapped list when the map preserves the predicate. -/
theorem find?_map_pred {α : Type} (l : List α) (f : α → α) (p : α → Bool)
    (hp : ∀ a, p (f a) = p a) :
    (l.map f).find? p = (l.find? p).map f := by
  induction l with
  | nil => rfl
  | cons a t ih =>
    by_cases hpa : p a = true
    · rw [List.map_cons, List.find?_cons_of_pos _ (by rw [hp]; exact hpa),
        List.find?_cons_of_pos _ hpa]
      rfl
    · rw [List.map_cons, List.find?_cons_of_neg _ (by rw [hp]; simpa using hpa),
        List.find?_cons_of_neg _ (by simpa using hpa)]
      exact ih

/-- The swipe-right continuation touches only session rows. -/
theorem respond_phase_jcs (db1 : DB) (jc : JobCandidateRec) (q : Str) :
    (respond_interested_phase db1 jc q).job_candidates = db1.job_candidates ∧
    (respond_interested_phase db1 jc q).profiles = db1.profiles := by
  unfold respond_interested_phase
  split
  · dsimp only
    split
    · exact ⟨rfl, rfl⟩
    · exact ⟨rfl, rfl⟩
  · exact ⟨rfl, rfl⟩

/-- A respond call on a JobCandidate whose decision is already set fails with
the state-conflict error. -/
theorem respond_conflict (db : DB) (uid jcid : Nat) (b : Bool) (q : Str)
    (p : ProfileRec) (jc : JobCandidateRec)
    (hp : db.profiles.find? (fun r => r.user_id == uid) = some p)
    (hjc : db.job_candidates.find?
        (fun r => r.id == jcid && r.candidate_profile_id == p.id) = some jc)
    (hdec : jc.candidate_decision.isSome) :
    candidate_respond_to_interview db uid jcid b q = .error .alreadyResponded := by
  unfold candidate_respond_to_interview
  rw [hp]
  simp only [hjc, hdec]
  rfl

/-- C5: candidate_decision is write-once. The first respond call on a
JobCandidate with no decision succeeds and stores interested/rejected according
to the request; any second respond call on the same JobCandidate then fails with
the conflict error, and the stored decision still equals the first call's value. -/
theorem C5_candidate_decision_write_once (db : DB) (uid jcid : Nat) (b1 b2 : Bool)
    (q1 q2 : Str) (p : ProfileRec) (jc : JobCandidateRec)
    (hp : db.profiles.find? (fun r => r.user_id == uid) = some p)
    (hjc : db.job_candidates.find?
        (fun r => r.id == jcid && r.candidate_profile_id == p.id) = some jc)
    (hdec : jc.candidate_decision = none) :
    ∃ db1, candidate_respond_to_interview db uid jcid b1 q1 = .ok db1 ∧
      (db1.job_candidates.find? (fun r => r.id == jcid && r.candidate_profile_id == p.id)).map
          (fun r => r.candidate_decision) =
        some (some (if b1 then CandidateDecision.interested else CandidateDecision.rejected)) ∧
      candidate_respond_to_interview db1 uid jcid b2 q2 = .error .alreadyResponded := by
  set d1 := if b1 then CandidateDecision.interested else CandidateDecision.rejected with hd1
  set dbA := updateJC db jcid (fun r => { r with candidate_decision := some d1 }) with hdbA
  have hjcid : (jc.id == jcid) = true := by
    have := List.find?_some hjc
    exact (Bool.and_eq_true _ _).mp this |>.1
  have hfindA : dbA.job_candidates.find? (fun r => r.id == jcid && r.candidate_profile_id == p.id) =
      some { jc with candidate_decision := some d1 } := by
    rw [hdbA]
    unfold updateJC
    rw [find?_map_pred _ _ _ (fun a => by by_cases h : a.id == jcid <;> simp [h]), hjc,
      Option.map_some', if_pos hjcid]
  refine ⟨if b1 then respond_interested_phase dbA jc q1 else dbA, ?_, ?_, ?_⟩
  · unfold candidate_respond_to_interview
    rw [hp]
    simp only [hjc, hdec]
    rfl
  · cases b1 with
    | false => simp [hfindA]
    | true =>
        simp only [if_true]
        rw [(respond_phase_jcs dbA jc q1).1, hfindA]
        rfl
  · have hjcs : (if b1 then respond_interested_phase dbA jc q1 else dbA).job_candidates =
        dbA.job_candidates := by
      cases b1 with
      | false => rfl
      | true => simpa using (respond_phase_jcs dbA jc q1).1
    have hprofs : (if b1 then respond_interested_phase dbA jc q1 else dbA).profiles =
        db.profiles := by
      cases b1 with
      | false => rfl
      | true => simpa using (respond_phase_jcs dbA jc q1).2
    apply respond_conflict _ _ _ _ _ p { jc with candidate_decision := some d1 }
    · rw [hprofs]
      exact hp
    · rw [hjcs]
      exact hfindA
    · rfl

/-- C5 witness: a fresh JobCandidate, interested then rejected. -/
theorem C5_witness :
    ∃ db1, candidate_respond_to_interview
        { profiles := [{ id := 1, user_id := 1 }],
          job_candidates := [{ id := 1, job_id := 1, candidate_profile_id := 1 }] } 1 1 true [] =
        .ok db1 ∧
      (db1.job_candidates.find? (fun r => r.id == 1 && r.candidate_profile_id == 1)).map
          (fun r => r.candidate_decision) =
        some (some (if true then CandidateDecision.interested else CandidateDecision.rejected)) ∧
      candidate_respond_to_interview db1 1 1 false [] = .error .alreadyResponded :=
  C5_candidate_decision_write_once
    { profiles := [{ id := 1, user_id := 1 }],
      job_candidates := [{ id := 1, job_id := 1, candidate_profile_id := 1 }] }
    1 1 true false [] [] { id := 1, user_id := 1 }
    { id := 1, job_id := 1, candidate_profile_id := 1 }
    (by decide) (by decide) (by decide)

/-- find? by token over updated sessions when the update preserves tokens. -/
theorem updateSession_find?_token (db : DB) (sid : Nat) (f : SessionRec → SessionRec)
    (htok : ∀ s, (f s).interview_link_token = s.interview_link_token) (tok : Str) :
    (updateSession db sid f).sessions.find? (fun s => s.interview_link_token == tok) =
      (db.sessions.find? (fun s => s.interview_link_token == tok)).map
        (fun s => if s.id == sid then f s else s) := by
  unfold updateSession
  exact find?_map_pred _ _ _ (fun a => by by_cases h : a.id == sid <;> simp [h, htok])

/-- C8: interview_start is idempotent. On a session with unset started_at, the
first call stores the current time; a second call on the same token succeeds as
a no-op, leaving the stored value of the first call unchanged. -/
theorem C8_interview_start_idempotent (db : DB) (token : Str) (t1 t2 : Nat)
    (inv : SessionRec)
    (hf : db.sessions.find? (fun s => s.interview_link_token == pyStrip token) = some inv)
    (h0 : inv.started_at = none) :
    ∃ db1, interview_start db token t1 = .ok db1 ∧
      (db1.sessions.find? (fun s => s.interview_link_token == pyStrip token)).map
          (fun s => s.started_at) = some (some t1) ∧
      interview_start db1 token t2 = .ok db1 := by
  set db1 := updateSession db inv.id (fun s => { s with started_at := some t1 }) with hdb1
  have hfind1 : db1.sessions.find? (fun s => s.interview_link_token == pyStrip token) =
      some { inv with started_at := some t1 } := by
    rw [hdb1, updateSession_find?_token db inv.id (fun s => { s with started_at := some t1 })
      (fun s => rfl) (pyStrip token), hf, Option.map_some', if_pos (by simp)]
  refine ⟨db1, ?_, ?_, ?_⟩
  · unfold interview_start
    rw [hf]
    simp [h0, hdb1]
  · rw [hfind1]
    rfl
  · unfold interview_start
    rw [hfind1]
    rfl

/-- C8 witness: one fresh session, started twice. -/
theorem C8_witness :
    ∃ db1, interview_start
        { sessions := [{ id := 1, job_candidate_id := 1, interview_link_token := ['t'] }] }
        ['t'] 42 = .ok db1 ∧
      (db1.sessions.find? (fun s => s.interview_link_token == pyStrip ['t'])).map
          (fun s => s.started_at) = some (some 42) ∧
      interview_start db1 ['t'] 99 = .ok db1 :=
  C8_interview_start_idempotent
    { sessions := [{ id := 1, job_candidate_id := 1, interview_link_token := ['t'] }] }
    ['t'] 42 99 { id := 1, job_candidate_id := 1, interview_link_token := ['t'] }
    (by decide) (by decide)

/-! ### Theorems: finalize top-3 selection (C6) -/

theorem insertByScoreDesc_perm (x : FinalizeCandidate) (l : List FinalizeCandidate) :
    (insertByScoreDesc x l).Perm (x :: l) := by
  induction l with
  | nil => exact List.Perm.refl _
  | cons y ys ih =>
    unfold insertByScoreDesc
    split
    · exact List.Perm.refl _
    · exact (ih.cons y).trans (List.Perm.swap x y ys)

theorem sortByScoreDesc_perm (l : List FinalizeCandidate) : (sortByScoreDesc l).Perm l := by
  suffices h : ∀ acc : List FinalizeCandidate,
      (l.foldl (fun a x => insertByScoreDesc x a) acc).Perm (l ++ acc) by
    simpa using h []
  induction l with
  | nil => intro acc; simp
  | cons x xs ih =>
    intro acc
    simp only [List.foldl_cons, List.cons_append]
    exact (ih _).trans
      ((List.Perm.append_left xs (insertByScoreDesc_perm x acc)).trans List.perm_middle)

theorem insertByScoreDesc_sorted (x : FinalizeCandidate) (l : List FinalizeCandidate)
    (h : l.Pairwise (fun a b => scoreKey b ≤ scoreKey a)) :
    (insertByScoreDesc x l).Pairwise (fun a b => scoreKey b ≤ scoreKey a) := by
  induction l with
  | nil => simp [insertByScoreDesc]
  | cons y ys ih =>
    rw [List.pairwise_cons] at h
    obtain ⟨hy, hys⟩ := h
    unfold insertByScoreDesc
    split
    case isTrue hlt =>
      rw [List.pairwise_cons]
      refine ⟨?_, List.Pairwise.cons hy hys⟩
      intro b hb
      rcases List.mem_cons.mp hb with rfl | hb2
      · exact le_of_lt hlt
      · exact (hy b hb2).trans (le_of_lt hlt)
    case isFalse hge =>
      rw [List.pairwise_cons]
      constructor
      · intro b hb
        rcases List.mem_cons.mp ((insertByScoreDesc_perm x ys).mem_iff.mp hb) with rfl | hb2
        · exact le_of_not_lt hge
        · exact hy b hb2
      · exact ih hys

theorem sortByScoreDesc_sorted (l : List FinalizeCandidate) :
    (sortByScoreDesc l).Pairwise (fun a b => scoreKey b ≤ scoreKey a) := by
  suffices h : ∀ acc, acc.Pairwise (fun a b => scoreKey b ≤ scoreKey a) →
      (l.foldl (fun a x => insertByScoreDesc x a) acc).Pairwise
        (fun a b => scoreKey b ≤ scoreKey a) by
    exact h [] (by simp)
  induction l with
  | nil => intro acc hacc; simpa using hacc
  | cons x xs ih =>
    intro acc hacc
    simp only [List.foldl_cons]
    exact ih _ (insertByScoreDesc_sorted x acc hacc)

theorem sorted_take_dominates (l : List FinalizeCandidate)
    (h : l.Pairwise (fun a b => scoreKey b ≤ scoreKey a)) (n : Nat) :
    ∀ a ∈ l.take n, ∀ b ∈ l.drop n, scoreKey b ≤ scoreKey a := by
  have h2 : (l.take n ++ l.drop n).Pairwise (fun a b => scoreKey b ≤ scoreKey a) := by
    rw [List.take_append_drop]
    exact h
  exact (List.pairwise_append.mp h2).2.2

theorem insertByIdAsc_perm (x : JobCandidateRec) (l : List JobCandidateRec) :
    (insertByIdAsc x l).Perm (x :: l) := by
  induction l with
  | nil => exact List.Perm.refl _
  | cons y ys ih =>
    unfold insertByIdAsc
    split
    · exact List.Perm.refl _
    · exact (ih.cons y).trans (List.Perm.swap x y ys)

theorem sortByIdAsc_perm (l : List JobCandidateRec) : (sortByIdAsc l).Perm l := by
  suffices h : ∀ acc : List JobCandidateRec,
      (l.foldl (fun a x => insertByIdAsc x a) acc).Perm (l ++ acc) by
    simpa using h []
  induction l with
  | nil => intro acc; simp
  | cons x xs ih =>
    intro acc
    simp only [List.foldl_cons, List.cons_append]
    exact (ih _).trans
      ((List.Perm.append_left xs (insertByIdAsc_perm x acc)).trans List.perm_middle)

/-- Decomposition of membership in the finalize read. -/
theorem mem_finalize_rows {db : DB} {jid : Nat}
    {row : JobCandidateRec × Option SessionRec × ProfileRec}
    (h : row ∈ finalize_rows db jid) :
    row.1 ∈ db.job_candidates ∧ row.1.job_id = jid ∧
    row.2.1 = db.sessions.find? (fun s => s.job_candidate_id == row.1.id) ∧
    db.profiles.find? (fun p => p.id == row.1.candidate_profile_id) = some row.2.2 := by
  unfold finalize_rows at h
  obtain ⟨a, ha, hf⟩ := List.mem_filterMap.mp h
  have ha2 : a ∈ db.job_candidates.filter (fun jc => jc.job_id == jid) :=
    (sortByIdAsc_perm _).mem_iff.mp ha
  obtain ⟨ham, hjob⟩ := List.mem_filter.mp ha2
  cases hcp : db.profiles.find? (fun p => p.id == a.candidate_profile_id) with
  | none =>
      rw [hcp] at hf
      exact absurd hf (by simp)
  | some cp =>
      rw [hcp] at hf
      have hrow : (a, db.sessions.find? (fun s => s.job_candidate_id == a.id), cp) = row := by
        simpa using hf
      subst hrow
      exact ⟨ham, by simpa using hjob, rfl, hcp⟩

/-- Every profile id in top_3_ids comes from a qualifying row. -/
theorem mem_finalizeTop3Ids {db : DB} {jid pid : Nat} (h : pid ∈ finalizeTop3Ids db jid) :
    ∃ row ∈ finalizeScored db jid, (finalizePayloadEntry row).profile_id = pid := by
  unfold finalizeTop3Ids at h
  obtain ⟨c, hc, rfl⟩ := List.mem_map.mp h
  have hc2 : c ∈ sortByScoreDesc (finalizePayload db jid) := List.take_subset _ _ hc
  have hc3 : c ∈ finalizePayload db jid := (sortByScoreDesc_perm _).mem_iff.mp hc2
  unfold finalizePayload at hc3
  obtain ⟨row, hrow, hrow2⟩ := List.mem_map.mp hc3
  exact ⟨row, hrow, by rw [hrow2]⟩

/-- Successful finalize rewrites exactly the selected_top_3 flags of the job's
rows (and the job status); sessions and profiles are untouched. -/
theorem finalize_ok_inv {db : DB} {jid emp : Nat} {db3 : DB}
    (h : employer_finalize_job db jid emp = .ok db3) :
    db3.job_candidates = db.job_candidates.map (fun jc =>
      if jc.job_id == jid then
        { jc with selected_top_3 := decide (jc.candidate_profile_id ∈ finalizeTop3Ids db jid) }
      else jc) ∧
    db3.sessions = db.sessions ∧ db3.profiles = db.profiles := by
  unfold employer_finalize_job at h
  split at h
  · exact absurd h (by simp)
  · dsimp only at h
    split at h
    · exact absurd h (by simp)
    · have h2 := (Except.ok.injEq _ _).mp h
      rw [← h2]
      exact ⟨rfl, rfl, rfl⟩

/-- Five candidates of one published job, interviews completed with transcripts,
scores 90, 70, 85, 40, 95 — the concrete finalize scenario of the claim. -/
def C6_db : DB :=
  { jobs := [{ id := 1, employer_id := 1, title := [], description_md := none,
               description_schema := some [([],[])], status := .published, created_at := 0 }]
    profiles := [{ id := 1, user_id := 1 }, { id := 2, user_id := 2 }, { id := 3, user_id := 3 },
                 { id := 4, user_id := 4 }, { id := 5, user_id := 5 }]
    job_candidates :=
      [{ id := 1, job_id := 1, candidate_profile_id := 1, interview_completed_at := some 10, score := some 90 },
       { id := 2, job_id := 1, candidate_profile_id := 2, interview_completed_at := some 10, score := some 70 },
       { id := 3, job_id := 1, candidate_profile_id := 3, interview_completed_at := some 10, score := some 85 },
       { id := 4, job_id := 1, candidate_profile_id := 4, interview_completed_at := some 10, score := some 40 },
       { id := 5, job_id := 1, candidate_profile_id := 5, interview_completed_at := some 10, score := some 95 }]
    sessions :=
      [{ id := 1, job_candidate_id := 1, interview_link_token := ['a'], transcript := some ['x'] },
       { id := 2, job_candidate_id := 2, interview_link_token := ['b'], transcript := some ['x'] },
       { id := 3, job_candidate_id := 3, interview_link_token := ['c'], transcript := some ['x'] },
       { id := 4, job_candidate_id := 4, interview_link_token := ['d'], transcript := some ['x'] },
       { id := 5, job_candidate_id := 5, interview_link_token := ['e'], transcript := some ['x'] }]
    next_job_id := 2, next_jc_id := 6, next_session_id := 6 }

/-- C6: after a successful finalize, top_3_ids holds min 3 (number of qualifying
candidates) ids, each belonging to a qualifying row; a JobCandidate row of the
job ends with selected_top_3 = true exactly when its profile is in top_3_ids;
every unselected qualifying candidate scores no higher (nulls as 0) than every
selected one; and on qualifying scores [90, 70, 85, 40, 95] exactly the
candidates scoring 95, 90, 85 end selected, a second finalize changing nothing. -/
theorem C6_finalize_selects_top3_by_score :
    (∀ (db : DB) (jid emp : Nat) (db3 : DB), employer_finalize_job db jid emp = .ok db3 →
      (finalizeTop3Ids db jid).length = min 3 (finalizeScored db jid).length ∧
      (∀ pid ∈ finalizeTop3Ids db jid,
        ∃ row ∈ finalizeScored db jid, (finalizePayloadEntry row).profile_id = pid) ∧
      (∀ r ∈ db3.job_candidates, r.job_id = jid →
        (r.selected_top_3 = true ↔ r.candidate_profile_id ∈ finalizeTop3Ids db jid)) ∧
      (∀ row ∈ finalizeScored db jid,
        (finalizePayloadEntry row).profile_id ∉ finalizeTop3Ids db jid →
        ∀ pid ∈ finalizeTop3Ids db jid,
          ∃ row2 ∈ finalizeScored db jid, (finalizePayloadEntry row2).profile_id = pid ∧
            scoreKey (finalizePayloadEntry row) ≤ scoreKey (finalizePayloadEntry row2))) ∧
    (∃ db1, employer_finalize_job C6_db 1 1 = .ok db1 ∧
      db1.job_candidates.map (fun r : JobCandidateRec => (r.score, r.selected_top_3)) =
        [(some 90, true), (some 70, false), (some 85, true), (some 40, false), (some 95, true)] ∧
      employer_finalize_job db1 1 1 = .ok db1) := by
  constructor
  · intro db jid emp db3 hok
    refine ⟨?_, fun pid h => mem_finalizeTop3Ids h, ?_, ?_⟩
    · unfold finalizeTop3Ids
      rw [List.length_map, List.length_take, (sortByScoreDesc_perm _).length_eq]
      unfold finalizePayload
      rw [List.length_map]
    · intro r hr hjob
      rw [(finalize_ok_inv hok).1] at hr
      obtain ⟨r0, hr0, rfl⟩ := List.mem_map.mp hr
      by_cases hb : (r0.job_id == jid) = true
      · rw [if_pos hb]
        simp only [decide_eq_true_eq]
      · rw [if_neg hb] at hjob ⊢
        exact absurd (by simpa using hjob) (by simpa using hb)
    · intro row hrow hnot pid hpid
      have hc : finalizePayloadEntry row ∈ finalizePayload db jid :=
        List.mem_map_of_mem finalizePayloadEntry hrow
      have hcs : finalizePayloadEntry row ∈ sortByScoreDesc (finalizePayload db jid) :=
        (sortByScoreDesc_perm _).mem_iff.mpr hc
      have hsplit : finalizePayloadEntry row ∈
          (sortByScoreDesc (finalizePayload db jid)).take 3 ++
            (sortByScoreDesc (finalizePayload db jid)).drop 3 := by
        rw [List.take_append_drop]
        exact hcs
      have hdrop : finalizePayloadEntry row ∈
          (sortByScoreDesc (finalizePayload db jid)).drop 3 := by
        rcases List.mem_append.mp hsplit with htk | hdr
        · exact absurd (by
            unfold finalizeTop3Ids
            exact List.mem_map_of_mem (fun c => c.profile_id) htk) hnot
        · exact hdr
      obtain ⟨c2, hc2, hc2pid⟩ := List.mem_map.mp hpid
      have hc2p : c2 ∈ finalizePayload db jid :=
        (sortByScoreDesc_perm _).mem_iff.mp (List.take_subset _ _ hc2)
      obtain ⟨row2, hrow2, hrow2e⟩ := List.mem_map.mp hc2p
      refine ⟨row2, hrow2, by rw [hrow2e, hc2pid], ?_⟩
      rw [hrow2e]
      exact sorted_take_dominates _ (sortByScoreDesc_sorted _) 3 c2 hc2 _ hdrop
  · refine ⟨(employer_finalize_job C6_db 1 1).toOption.getD C6_db, by decide, by decide,
      by decide⟩

/-- C6 witness: the general part applied at the concrete five-candidate store. -/
theorem C6_witness :
    (finalizeTop3Ids C6_db 1).length = min 3 (finalizeScored C6_db 1).length :=
  (C6_finalize_selects_top3_by_score.1 C6_db 1 1
    ((employer_finalize_job C6_db 1 1).toOption.getD C6_db) (by decide)).1

/-! ### Theorems: whitespace-only transcript (C10) -/

/-- C10: completing an interview with a whitespace-only transcript stores the
session transcript as NULL while still setting ended_at and
interview_completed_at; that JobCandidate then never satisfies finalize's
non-empty-transcript qualification, so (with one row per candidate and job) a
later finalize leaves its selected_top_3 false. -/
theorem C10_whitespace_transcript_never_selected (db : DB) (token : Str) (tr : Str) (score_result : Option ℚ) (now : Nat)
    (inv : SessionRec) (jc : JobCandidateRec)
    (hf : db.sessions.find? (fun s => s.interview_link_token == pyStrip token) = some inv)
    (hjc : db.job_candidates.find? (fun r => r.id == inv.job_candidate_id) = some jc)
    (hnc : jc.interview_completed_at = none)
    (hjob : (db.jobs.find? (fun j => j.id == jc.job_id)).isSome)
    (hcp : (db.profiles.find? (fun pr => pr.id == jc.candidate_profile_id)).isSome)
    (hs : db.sessions.find? (fun s => s.job_candidate_id == jc.id) = some inv)
    (hws : pyStrip tr = []) :
    ∃ db2 sc, interview_complete db token tr score_result now = .ok (db2, sc) ∧
      (db2.sessions.find? (fun s => s.interview_link_token == pyStrip token)).map
          (fun s => (s.transcript, s.ended_at)) = some (none, some now) ∧
      (db2.job_candidates.find? (fun r => r.id == inv.job_candidate_id)).map
          (fun r => r.interview_completed_at) = some (some now) ∧
      (∀ row ∈ finalize_rows db2 jc.job_id, row.1.id = jc.id → finalizeQualifies row = false) ∧
      (∀ emp db3, employer_finalize_job db2 jc.job_id emp = .ok db3 →
        (∀ r ∈ db.job_candidates, r.job_id = jc.job_id →
          r.candidate_profile_id = jc.candidate_profile_id → r.id = jc.id) →
        ∀ r ∈ db3.job_candidates, r.job_id = jc.job_id →
          r.candidate_profile_id = jc.candidate_profile_id → r.selected_top_3 = false) := by
  obtain ⟨job, hjobv⟩ := Option.isSome_iff_exists.mp hjob
  obtain ⟨cp, hcpv⟩ := Option.isSome_iff_exists.mp hcp
  have hlink : jc.id = inv.job_candidate_id := by
    have := List.find?_some hjc
    simpa using this
  set dbF : DB := updateJC (updateSession db inv.id (completeSessionUpdate none score_result now))
      jc.id (completeJCUpdate score_result now) with hdbF
  have hok : interview_complete db token tr score_result now =
      .ok (dbF, scoreOrKeep score_result inv.score) := by
    unfold interview_complete
    rw [hf]
    simp only [hjc, hnc, hjobv, hcpv, hws]
    rfl
  have hjcsF : dbF.job_candidates = db.job_candidates.map
      (fun r => if r.id == jc.id then completeJCUpdate score_result now r else r) := rfl
  have hsesF : dbF.sessions = db.sessions.map
      (fun s => if s.id == inv.id then completeSessionUpdate none score_result now s else s) := rfl
  have hsesFindTok : dbF.sessions.find? (fun s => s.interview_link_token == pyStrip token) =
      some (completeSessionUpdate none score_result now inv) := by
    rw [hsesF, find?_map_pred _ _ _
        (fun a => by by_cases h : a.id == inv.id <;> simp [h, completeSessionUpdate]),
      hf, Option.map_some', if_pos (by simp)]
  have hsesFindJc : dbF.sessions.find? (fun s => s.job_candidate_id == jc.id) =
      some (completeSessionUpdate none score_result now inv) := by
    rw [hsesF, find?_map_pred _ _ _
        (fun a => by by_cases h : a.id == inv.id <;> simp [h, completeSessionUpdate]),
      hs, Option.map_some', if_pos (by simp)]
  have hjcFind : dbF.job_candidates.find? (fun r => r.id == inv.job_candidate_id) =
      some (completeJCUpdate score_result now jc) := by
    rw [hjcsF, find?_map_pred _ _ _
        (fun a => by by_cases h : a.id == jc.id <;> simp [h, completeJCUpdate]),
      hjc, Option.map_some', if_pos (by simp)]
  have hq4 : ∀ row ∈ finalize_rows dbF jc.job_id, row.1.id = jc.id →
      finalizeQualifies row = false := by
    intro row hrow hid
    obtain ⟨hmemJC, hjid, hses, hcpfind⟩ := mem_finalize_rows hrow
    unfold finalizeQualifies
    rw [hses, hid, hsesFindJc]
    simp [completeSessionUpdate]
  refine ⟨dbF, _, hok, ?_, ?_, hq4, ?_⟩
  · rw [hsesFindTok]
    simp [completeSessionUpdate]
  · rw [hjcFind]
    simp [completeJCUpdate]
  · intro emp db3 hok3 hdist r hr hjobid hcpid
    have hnotin : jc.candidate_profile_id ∉ finalizeTop3Ids dbF jc.job_id := by
      intro hmem
      obtain ⟨row, hrowS, hpid⟩ := mem_finalizeTop3Ids hmem
      have hrowR : row ∈ finalize_rows dbF jc.job_id := by
        unfold finalizeScored at hrowS
        exact (List.mem_filter.mp hrowS).1
      have hq : finalizeQualifies row = true := by
        unfold finalizeScored at hrowS
        exact (List.mem_filter.mp hrowS).2
      obtain ⟨hmemJC, hjid, hses, hcpfind⟩ := mem_finalize_rows hrowR
      have hpid2 : row.1.candidate_profile_id = jc.candidate_profile_id := by
        have h1 := List.find?_some hcpfind
        have h2 : row.2.2.id = row.1.candidate_profile_id := by simpa using h1
        have h3 : (finalizePayloadEntry row).profile_id = row.2.2.id := rfl
        rw [h3, h2] at hpid
        exact hpid
      rw [hjcsF] at hmemJC
      obtain ⟨r0, hr0, hr0e⟩ := List.mem_map.mp hmemJC
      have hfields : row.1.id = r0.id ∧ row.1.candidate_profile_id = r0.candidate_profile_id ∧
          row.1.job_id = r0.job_id := by
        rw [← hr0e]
        by_cases hb : (r0.id == jc.id) = true <;> simp [hb, completeJCUpdate]
      have hr0id : r0.id = jc.id :=
        hdist r0 hr0 (by rw [← hfields.2.2]; exact hjid) (by rw [← hfields.2.1]; exact hpid2)
      have hqf : finalizeQualifies row = false := hq4 row hrowR (by rw [hfields.1, hr0id])
      rw [hq] at hqf
      exact absurd hqf (by simp)
    rw [(finalize_ok_inv hok3).1] at hr
    obtain ⟨r2, hr2, hr2e⟩ := List.mem_map.mp hr
    by_cases hb : (r2.job_id == jc.job_id) = true
    · rw [if_pos hb] at hr2e
      have hcp2 : r2.candidate_profile_id = jc.candidate_profile_id := by
        rw [← hr2e] at hcpid
        simpa using hcpid
      rw [← hr2e]
      show decide (r2.candidate_profile_id ∈ finalizeTop3Ids dbF jc.job_id) = false
      rw [hcp2]
      exact decide_eq_false hnotin
    · rw [if_neg hb] at hr2e
      rw [← hr2e] at hjobid
      exact absurd (by simpa using hjobid) (by simpa using hb)

/-- A one-candidate store for the C10 witness: one published job, one
JobCandidate, one fresh session. -/
def C10_db : DB :=
  { jobs := [{ id := 1, employer_id := 1, title := [], description_md := none,
               description_schema := none, status := .published, created_at := 0 }]
    profiles := [{ id := 1, user_id := 1 }]
    job_candidates := [{ id := 1, job_id := 1, candidate_profile_id := 1 }]
    sessions := [{ id := 1, job_candidate_id := 1, interview_link_token := ['t','k'] }] }

/-- The session row of C10_db. -/
def C10_inv : SessionRec := { id := 1, job_candidate_id := 1, interview_link_token := ['t','k'] }

/-- The JobCandidate row of C10_db. -/
def C10_jc : JobCandidateRec := { id := 1, job_id := 1, candidate_profile_id := 1 }

/-- C10 witness: one session, completed with a whitespace-only transcript. -/
theorem C10_witness :
    ∃ db2 sc, interview_complete C10_db ['t','k'] [' ',' '] none 7 = .ok (db2, sc) ∧
      (db2.sessions.find? (fun s => s.interview_link_token == pyStrip ['t','k'])).map
          (fun s => (s.transcript, s.ended_at)) = some (none, some 7) ∧
      (db2.job_candidates.find? (fun r => r.id == C10_inv.job_candidate_id)).map
          (fun r => r.interview_completed_at) = some (some 7) ∧
      (∀ row ∈ finalize_rows db2 C10_jc.job_id, row.1.id = C10_jc.id →
        finalizeQualifies row = false) ∧
      (∀ emp db3, employer_finalize_job db2 C10_jc.job_id emp = .ok db3 →
        (∀ r ∈ C10_db.job_candidates, r.job_id = C10_jc.job_id →
          r.candidate_profile_id = C10_jc.candidate_profile_id → r.id = C10_jc.id) →
        ∀ r ∈ db3.job_candidates, r.job_id = C10_jc.job_id →
          r.candidate_profile_id = C10_jc.candidate_profile_id → r.selected_top_3 = false) :=
  C10_whitespace_transcript_never_selected C10_db ['t','k'] [' ',' '] none 7 C10_inv C10_jc
    (by decide) (by decide) (by decide) (by decide) (by decide) (by decide) (by decide)

end Corto
